import Mathlib

/-!
Verification of the middleware composition/validation engine
(type-equivalence checker, stack validator, stack composers, registry
resolver) against its natural-language specification.

The engine's data is embedded shallowly:

* a Zod schema descriptor becomes `Schema` (object-like descriptors carry
  an insertion-ordered list of named fields; primitive-like descriptors
  carry the optional kind tag read from `_def.typeName`, with `none`
  modelling a missing or unreadable tag);
* a middleware step's four optional contract descriptors and optional
  display name become the `Mw` structure;
* JavaScript `undefined` becomes `Option.none`;
* the sequential, cooperatively-scheduled execution of a composed pipeline
  becomes a log-state computation `Eff` (each await point is a pure
  sequencing step; the log records observable middleware events).
-/

namespace Middlewares

/-- A structural schema descriptor as the engine introspects it: either an
object-like descriptor exposing a named-field shape, or a primitive-like
descriptor exposing (at most) a kind tag. -/
inductive Schema : Type
  | obj (fields : List (String × Schema))
  | prim (typeName : Option String)

/-- The kind tag a descriptor reports through `_def.typeName`: a `ZodObject`
instance reports the tag `"ZodObject"`; a primitive-like descriptor reports
its own tag, `none` when no tag is readable. -/
def kindTag : Schema → Option String
  | .obj _ => some "ZodObject"
  | .prim t => t

/-- Whether a descriptor exposes a named-field shape (is a `ZodObject`). -/
def isObjectLike : Schema → Bool
  | .obj _ => true
  | .prim _ => false

mutual

/-- Core of `areTypesEquivalent` (src/src/areEquivalent.ts) on two defined
descriptors. When both are object-like, every key of the shape of `a` must
occur in the shape of `b` with recursively equivalent field descriptors
(the superset rule); otherwise the two kind tags are compared with loose
equality, under which two absent tags (`undefined == undefined`) compare
equal. -/
def equivSchema : Schema → Schema → Bool
  | .obj fa, .obj fb => equivFields fa fb
  | a, b => kindTag a == kindTag b

/-- The `for (const key of keysA)` loop of `areTypesEquivalent`: each key of
the first shape must be a key of the second shape and the two field
descriptors must be recursively equivalent. -/
def equivFields : List (String × Schema) → List (String × Schema) → Bool
  | [], _ => true
  | (k, v) :: rest, fb =>
    (match fb.lookup k with
     | some w => equivSchema v w
     | none => false) && equivFields rest fb

end

/-- `areTypesEquivalent` (src/src/areEquivalent.ts), the checker exported by
src/src/index.ts and used by `validateStack`. Control flow of the source:
the both-`ZodObject` branch runs the superset loop; mixed
`undefined`/defined returns `false`; both `undefined` returns `true`;
otherwise the two `_def?.typeName` tags are compared with `==`. The cases
are disjoint, so the match below is in source order up to reordering. -/
def areTypesEquivalent (a b : Option Schema) : Bool :=
  match a, b with
  | some a', some b' => equivSchema a' b'
  | none, none => true
  | _, _ => false

/-- A middleware step's validation metadata (src/src/types.ts,
`MiddlewareValidation`): four optional contract descriptors and an optional
display name. `Option.none` models a field left `undefined`. -/
structure Mw where
  MyArgType : Option Schema
  NextMiddlewareArg : Option Schema
  NextMiddlewareReturnType : Option Schema
  MyReturnType : Option Schema
  Name : Option String

/-- `isNever` (src/src/validate.ts): a contract slot holding `undefined` or
`null` counts as absent. Both JavaScript values are modelled by `none`. -/
def isNever (value : Option Schema) : Bool :=
  value.isNone

/-- How `${self.Name}` renders inside a template literal: an `undefined`
name prints as the string `undefined`. -/
def jsName : Option String → String
  | some s => s
  | none => "undefined"

/-- The input-contract mismatch diagnostic text built by `validateStack`. -/
def inputMismatchMsg (self next : Mw) : String :=
  "Types don\x27t match between self:" ++ jsName self.Name ++
    ".NextMiddlewareArg and next:" ++ jsName next.Name ++
    ".MyArgType argument type"

/-- The output-contract mismatch diagnostic text built by `validateStack`. -/
def outputMismatchMsg (self next : Mw) : String :=
  "Types don\x27t match between self:" ++ jsName self.Name ++
    ".NextMiddlewareReturnType and next:" ++ jsName next.Name ++
    ".MyReturnType output type"

/-- The two checks the `validateStack` loop body performs for one adjacent
pair `(self, next)`: the input-contract check guarded by
`!isNever(self.NextMiddlewareArg)`, then the unconditional output-contract
check; each failing check appends its diagnostic. -/
def pairMsgs (checker : Option Schema → Option Schema → Bool)
    (self next : Mw) : List String :=
  (if !(isNever self.NextMiddlewareArg) &&
      !(checker next.MyArgType self.NextMiddlewareArg) then
    [inputMismatchMsg self next]
  else []) ++
  (if !(checker self.NextMiddlewareReturnType next.MyReturnType) then
    [outputMismatchMsg self next]
  else [])

/-- The diagnostics contributed by the adjacent pair at positions
`(i, i+1)` of the stack; an out-of-range read contributes nothing (the
source loop never reads out of range). -/
def pairAt (stack : List Mw)
    (checker : Option Schema → Option Schema → Bool) (i : Nat) : List String :=
  match stack[i]?, stack[i + 1]? with
  | some self, some nxt => pairMsgs checker self nxt
  | _, _ => []

/-- `validateStack` (src/src/validate.ts): for `i` from `0` to
`stack.length - 2` the loop reads the pair at `(i, i+1)` and appends the
pair's diagnostics to the error list. Diagnostics are modelled by their
message strings (the source wraps each in an `Error`). -/
def validateStack (stack : List Mw)
    (checker : Option Schema → Option Schema → Bool) : List String :=
  (List.range (stack.length - 1)).flatMap (pairAt stack checker)

/-- The `validateStack` loop body for one adjacent pair, with a fallible
checker: the guarded input check only runs the checker when
`NextMiddlewareArg` is present (the short-circuit `&&` of the source), the
output check runs unconditionally, and a checker failure propagates. -/
def pairStepE (checker : Option Schema → Option Schema → Except String Bool)
    (self nxt : Mw) (errors : List String) : Except String (List String) := do
  let errors₁ ←
    if isNever self.NextMiddlewareArg then
      pure errors
    else do
      let ok ← checker nxt.MyArgType self.NextMiddlewareArg
      pure (if ok then errors else errors ++ [inputMismatchMsg self nxt])
  let ok₂ ← checker self.NextMiddlewareReturnType nxt.MyReturnType
  pure (if ok₂ then errors₁ else errors₁ ++ [outputMismatchMsg self nxt])

/-- One iteration of the fallible-checker validation loop. -/
def stepE (stack : List Mw)
    (checker : Option Schema → Option Schema → Except String Bool)
    (errors : List String) (i : Nat) : Except String (List String) :=
  match stack[i]?, stack[i + 1]? with
  | some self, some nxt => pairStepE checker self nxt errors
  | _, _ => pure errors

/-- `validateStack` with a fallible checker: the source never catches an
exception thrown by the supplied `areEquivalent` function, so a checker
failure aborts the whole validation (`Except.error`). -/
def validateStackE (stack : List Mw)
    (checker : Option Schema → Option Schema → Except String Bool) :
    Except String (List String) :=
  (List.range (stack.length - 1)).foldlM (stepE stack checker) []

/-- One iteration of the `validateStack` loop viewed with the stack
threaded as state: the body reads the pair at `(i, i+1)` from the current
stack and only ever writes to the error accumulator. -/
def stepSt (checker : Option Schema → Option Schema → Bool)
    (st : List String × List Mw) (i : Nat) : List String × List Mw :=
  match st.2[i]?, st.2[i + 1]? with
  | some self, some nxt => (st.1 ++ pairMsgs checker self nxt, st.2)
  | _, _ => st

/-- State-threaded view of the `validateStack` loop. -/
def validateStackSt (stack : List Mw)
    (checker : Option Schema → Option Schema → Bool) :
    List String × List Mw :=
  (List.range (stack.length - 1)).foldl (stepSt checker) ([], stack)

/-- A value stored in (or produced through) a middleware registry:
either a middleware step value (identified by an id; its behaviour is
irrelevant to resolution) or a zero-argument provider function whose
invocation would yield `yields`. Neither kind of value is a thenable. -/
inductive RegItem : Type
  | mwItem (id : Nat)
  | provider (yields : RegItem)
deriving DecidableEq

/-- `await Promise.all` applied to one array element: a non-thenable value
(a middleware value, or a provider function — functions have no `then`
method) resolves to itself; in particular a provider function is *not*
invoked by `Promise.all`. -/
def resolveJs : RegItem → RegItem
  | .mwItem i => .mwItem i
  | .provider y => .provider y

/-- JavaScript `registry[el]` for a key known to be present; the `.getD`
default is unreachable because resolution only reaches this read after the
missing-keys check passed. -/
def regGet (registry : List (String × RegItem)) (el : String) : RegItem :=
  (registry.lookup el).getD (.mwItem 0)

/-- `getFromRegistry` (src/src/registry.ts): collect the requested names
missing from the registry's keys; if any, throw a single error listing them
comma+space separated in request order; otherwise map each name to
`registry[el]` (the stored provider function, *not* its invocation) and
return `await Promise.all` of those values. -/
def getFromRegistry (stack : List String)
    (registry : List (String × RegItem)) : Except String (List RegItem) :=
  let haystack := registry.map Prod.fst
  let missing := stack.filter fun el => !(haystack.contains el)
  if missing.length > 0 then
    .error ("Missing middlewares in registry: " ++
      String.intercalate ", " missing)
  else
    .ok ((stack.map fun el => regGet registry el).map resolveJs)

/-- `getGenFromRegistry` (src/src/registry.ts): identical resolution logic
for the callback-style registry. -/
def getGenFromRegistry (stack : List String)
    (registry : List (String × RegItem)) : Except String (List RegItem) :=
  let haystack := registry.map Prod.fst
  let missing := stack.filter fun el => !(haystack.contains el)
  if missing.length > 0 then
    .error ("Missing middlewares in registry: " ++
      String.intercalate ", " missing)
  else
    .ok ((stack.map fun el => regGet registry el).map resolveJs)

/-! ## Execution model for the composers

The promise-style pipeline is sequential: every `await` is a pure
sequencing point. Execution is modelled as a log-state computation, the
log recording the observable events middleware bodies emit. -/

/-- The value universe flowing through a pipeline: numbers and plain
objects (an empty object literal is `V.vobj []`). -/
inductive V : Type
  | vnum (n : Int)
  | vobj (fields : List (String × V))

/-- A sequential asynchronous computation with an observable event log. -/
def Eff (α : Type) : Type := List String → α × List String

/-- Return a value without emitting events (a resolved promise). -/
def effPure {α : Type} (a : α) : Eff α := fun log => (a, log)

/-- Sequencing (`await m; then f`). -/
def effBind {α β : Type} (m : Eff α) (f : α → Eff β) : Eff β :=
  fun log =>
    let r := m log
    f r.1 r.2

/-- Emit one observable event. -/
def effLog (s : String) : Eff Unit := fun log => ((), log ++ [s])

/-- `MiddlewareCall` (src/src/types.ts): a continuation taking a request to
an (awaited) response. -/
def Cont : Type := V → Eff V

/-- A promise-style middleware callable: `(input, next) => output`. -/
def MwF : Type := V → Cont → Eff V

/-- `composeStack` (src/src/registry.ts): `reduceRight` starting from the
terminal continuation `async (_req) => emptyObject as Response`; each fold
step wraps the accumulated continuation as the `next` argument of the
middleware at that position, and the outer wrapper `(req) => composed(req)`
is eta-equal to the fold's result. -/
def composeStack (stack : List MwF) : Cont :=
  stack.foldr (fun middleware next => fun req => middleware req next)
    (fun _req => effPure (V.vobj []))

/-- An `onNextResolved` / `resolve` callback of the callback-style flavor. -/
def GenCb : Type := V → Eff Unit

/-- `NextGen` (src/src/types.ts): `(arg, resolve) => void`. -/
def GenCont : Type := V → GenCb → Eff Unit

/-- A callback-style middleware callable: `(details, next, resolve)`. -/
def GenMwF : Type := V → GenCont → GenCb → Eff Unit

/-- The terminal continuation of `composeGenStack` (src/src/registry.ts)
and `buildGenStack` (src/gen.ts): the source supplies
`async (_req) => emptyObject as Response`, a function declaring only the
request parameter. When the last stack element calls it as
`next(input, onNextResolved)`, the extra callback argument is dropped by
the JavaScript call, and the returned empty-object promise is discarded at
every (void-typed) call site — so the callback is never invoked and no
event is emitted. -/
def genTerminal : GenCont := fun _req _onNextResolved => effPure ()

/-- `composeGenStack` (src/src/registry.ts) / `buildGenStack` (src/gen.ts):
`reduceRight` from `genTerminal`, wrapping each middleware around the
accumulated `next` continuation; the outer wrapper
`(argument, apply) => void composed(argument, apply)` forwards both
arguments. -/
def composeGenStack (stack : List GenMwF) : GenCont :=
  stack.foldr
    (fun middleware next => fun details resolve => middleware details next resolve)
    genTerminal

/-! ## Concrete fixtures used by the composition properties -/

/-- Read a named field of a pipeline value (JavaScript property access). -/
def getField (v : V) (k : String) : Option V :=
  match v with
  | .vobj fields => fields.lookup k
  | .vnum _ => none

/-- A promise-style step that logs `start`, awaits `next` on its input,
logs `end`, and returns the response (the shape used by the spec's P5). -/
def logAroundMw (tag : String) : MwF := fun req next =>
  effBind (effLog (tag ++ "-start")) fun _ =>
  effBind (next req) fun resp =>
  effBind (effLog (tag ++ "-end")) fun _ =>
  effPure resp

/-- The terminal step of the P5 scenario: logs its combined
start-and-terminal event and returns without calling `next`. -/
def termLogMw : MwF := fun req _next =>
  effBind (effLog "3-start-and-terminal") fun _ =>
  effPure req

/-- The `Double` step of the spec's scenario: terminal, never calls `next`,
returns an object with `result` twice the input's `value`. -/
def doubleMw : MwF := fun req _next =>
  effPure (V.vobj [("result",
    match getField req "value" with
    | some (.vnum n) => V.vnum (2 * n)
    | _ => V.vnum 0)])

/-- The `Triple` step of the spec's scenario, instrumented: it logs an
event as soon as its body runs, so an empty log proves it never ran. -/
def tripleProbeMw : MwF := fun req next =>
  effBind (effLog "Triple-invoked") fun _ =>
  effBind (next req) fun resp =>
  effPure resp

/-- A last-position callback-style step that invokes its `next` argument
with its input and the supplied `onNextResolved` callback — the exact
interaction the terminal-stub claim is about. -/
def genCallProbe (onNextResolved : GenCb) : GenMwF :=
  fun details next _resolve => next details onNextResolved

/-- `genCallProbe` specialised to a callback that logs an event when (and
only when) the terminal stub invokes it. -/
def genLogProbe : GenMwF :=
  genCallProbe fun _v => effLog "onNextResolved-invoked"

/-- A `resolve` callback that ignores its value (the outer listener). -/
def noopCb : GenCb := fun _v => effPure ()

/-- Fixture: a `self` middleware whose next-contracts are string-typed. -/
def mwSelfFix : Mw :=
  ⟨none, some (.prim (some "ZodString")), some (.prim (some "ZodString")),
    none, some "Foo"⟩

/-- Fixture: a `next` middleware whose own contracts mismatch the
next-contracts of `mwSelfFix` kind-for-kind. -/
def mwNextFix : Mw :=
  ⟨some (.prim (some "ZodNumber")), none, none,
    some (.prim (some "ZodBoolean")), some "Bar"⟩

/-! ## Helper lemmas -/

/-- The superset loop succeeds exactly when every field of the first shape
has a recursively equivalent counterpart in the second shape. -/
lemma equivFields_iff (fa fb : List (String × Schema)) :
    equivFields fa fb = true ↔
      ∀ p ∈ fa, ∃ w, fb.lookup p.1 = some w ∧ equivSchema p.2 w = true := by
  induction fa with
  | nil => simp [equivFields]
  | cons hd tl ih =>
    obtain ⟨k, v⟩ := hd
    rw [equivFields, Bool.and_eq_true, ih]
    cases h : fb.lookup k with
    | none =>
      constructor
      · rintro ⟨hfalse, -⟩
        cases hfalse
      · intro hall
        obtain ⟨w, hw, -⟩ := hall (k, v) (List.mem_cons_self _ _)
        rw [h] at hw
        cases hw
    | some w =>
      constructor
      · rintro ⟨hvw, htl⟩ p hp
        rcases List.mem_cons.mp hp with hph | hptl
        · subst hph
          exact ⟨w, h, hvw⟩
        · exact htl p hptl
      · intro hall
        refine ⟨?_, fun p hp => hall p (List.mem_cons_of_mem _ hp)⟩
        obtain ⟨w', hw', hvw'⟩ := hall (k, v) (List.mem_cons_self _ _)
        rw [h] at hw'
        cases hw'
        exact hvw'

/-- Scanning a stack of length at least two processes the head pair first
and then continues with the tail stack. -/
lemma validateStack_cons (checker : Option Schema → Option Schema → Bool)
    (x y : Mw) (rest : List Mw) :
    validateStack (x :: y :: rest) checker =
      pairMsgs checker x y ++ validateStack (y :: rest) checker := by
  have hshift : ∀ a, pairAt (x :: y :: rest) checker (Nat.succ a) =
      pairAt (y :: rest) checker a := by
    intro a
    simp [pairAt, List.getElem?_cons_succ]
  have hzero : pairAt (x :: y :: rest) checker 0 = pairMsgs checker x y := by
    simp [pairAt]
  unfold validateStack
  have h2 : (x :: y :: rest).length - 1 = (y :: rest).length - 1 + 1 := by simp
  rw [h2, List.range_succ_eq_map, List.flatMap_cons, List.flatMap_map]
  simp only [hshift, hzero]

/-- A single-element stack has no adjacent pair and yields no diagnostics. -/
lemma validateStack_single (checker : Option Schema → Option Schema → Bool)
    (m : Mw) : validateStack [m] checker = [] := rfl

/-- A two-element stack yields exactly the head pair's diagnostics. -/
lemma validateStack_two (checker : Option Schema → Option Schema → Bool)
    (m1 m2 : Mw) :
    validateStack [m1, m2] checker = pairMsgs checker m1 m2 := by
  rw [validateStack_cons, validateStack_single, List.append_nil]

/-- A non-throwing checker makes the fallible loop body return exactly the
pure body's accumulated diagnostics. -/
lemma pairStepE_ok (f : Option Schema → Option Schema → Bool)
    (self nxt : Mw) (errors : List String) :
    pairStepE (fun a b => Except.ok (f a b)) self nxt errors =
      Except.ok (errors ++ pairMsgs f self nxt) := by
  unfold pairStepE pairMsgs
  cases hN : isNever self.NextMiddlewareArg <;>
    cases h1 : f nxt.MyArgType self.NextMiddlewareArg <;>
      cases h2 : f self.NextMiddlewareReturnType nxt.MyReturnType <;>
        simp [hN, h1, h2, Bind.bind, Except.bind, pure, Except.pure]

/-- A non-throwing checker makes one fallible loop iteration return
`Except.ok` of the accumulator extended with the pair's diagnostics. -/
lemma stepE_ok (stack : List Mw) (f : Option Schema → Option Schema → Bool)
    (errors : List String) (i : Nat) :
    stepE stack (fun a b => Except.ok (f a b)) errors i =
      Except.ok (errors ++ pairAt stack f i) := by
  unfold stepE pairAt
  cases h1 : stack[i]? <;> cases h2 : stack[i + 1]?
  case some.some self nxt => exact pairStepE_ok f self nxt errors
  all_goals simp [pure, Except.pure]

/-- Folding the fallible loop over any index list with a non-throwing
checker returns `Except.ok` of the pure scan appended to the accumulator. -/
lemma foldlM_stepE_ok (stack : List Mw)
    (f : Option Schema → Option Schema → Bool) :
    ∀ (l : List Nat) (init : List String),
      l.foldlM (stepE stack (fun a b => Except.ok (f a b))) init =
        Except.ok (init ++ l.flatMap (pairAt stack f)) := by
  intro l
  induction l with
  | nil => intro init; simp [List.foldlM]; rfl
  | cons i l ih =>
    intro init
    rw [List.foldlM_cons, List.flatMap_cons, stepE_ok]
    have hbind : ∀ (a : List String)
        (g : List String → Except String (List String)),
        (Except.ok a >>= g) = g a := fun a g => rfl
    rw [hbind, ih (init ++ pairAt stack f i), List.append_assoc]

/-- One state-threaded iteration leaves the stack component untouched and
appends the pair's diagnostics to the error component. -/
lemma stepSt_eq (f : Option Schema → Option Schema → Bool)
    (errors : List String) (stack : List Mw) (i : Nat) :
    stepSt f (errors, stack) i = (errors ++ pairAt stack f i, stack) := by
  unfold stepSt pairAt
  cases h1 : stack[i]? with
  | none => simp
  | some self =>
    cases h2 : stack[i + 1]? with
    | none => simp
    | some nxt => rfl

/-- Folding the state-threaded loop never changes the stack component and
accumulates exactly the pure scan in the error component. -/
lemma foldl_stepSt (f : Option Schema → Option Schema → Bool)
    (stack : List Mw) :
    ∀ (l : List Nat) (errors : List String),
      l.foldl (stepSt f) (errors, stack) =
        (errors ++ l.flatMap (pairAt stack f), stack) := by
  intro l
  induction l with
  | nil => intro errors; simp
  | cons i l ih =>
    intro errors
    rw [List.foldl_cons, List.flatMap_cons, stepSt_eq,
      ih (errors ++ pairAt stack f i), List.append_assoc]

/-! ## Claim theorems -/

/-- C6: `areTypesEquivalent(undefined, undefined) = true`; a defined
descriptor against `undefined` is `false` in both directions; and a
zero-field object-like descriptor — unlike `undefined` — is compatible
with every defined object-like descriptor. -/
theorem areTypesEquivalent_absence :
    areTypesEquivalent none none = true ∧
    (∀ d : Schema, areTypesEquivalent (some d) none = false) ∧
    (∀ d : Schema, areTypesEquivalent none (some d) = false) ∧
    (∀ fields : List (String × Schema),
      areTypesEquivalent (some (.obj [])) (some (.obj fields)) = true) ∧
    (∀ fields : List (String × Schema),
      areTypesEquivalent none (some (.obj fields)) = false) :=
  ⟨rfl, fun _ => rfl, fun _ => rfl, fun _ => rfl, fun _ => rfl⟩

/-- C5: on two defined object-like descriptors the checker returns `true`
iff every field name of the shape of `a` occurs in the shape of `b` with
recursively equivalent field descriptors (fields only in `b` are ignored);
with the P4 instance — A exposing the single field x, B exposing the
fields x and y — `equivalent(A,B) = true` and `equivalent(B,A) = false`. -/
theorem areTypesEquivalent_superset_rule :
    (∀ fa fb : List (String × Schema),
      areTypesEquivalent (some (.obj fa)) (some (.obj fb)) = true ↔
        ∀ p ∈ fa, ∃ w, fb.lookup p.1 = some w ∧ equivSchema p.2 w = true) ∧
    areTypesEquivalent (some (.obj [("x", .prim (some "ZodString"))]))
      (some (.obj [("x", .prim (some "ZodString")),
        ("y", .prim (some "ZodNumber"))])) = true ∧
    areTypesEquivalent (some (.obj [("x", .prim (some "ZodString")),
        ("y", .prim (some "ZodNumber"))]))
      (some (.obj [("x", .prim (some "ZodString"))])) = false := by
  refine ⟨fun fa fb => ?_, rfl, rfl⟩
  show equivSchema (.obj fa) (.obj fb) = true ↔ _
  rw [equivSchema]
  exact equivFields_iff fa fb

/-- C5 witness: the superset iff applied to the concrete P4 shapes. -/
theorem areTypesEquivalent_superset_rule_witness :
    ∀ p ∈ [("x", Schema.prim (some "ZodString"))],
      ∃ w, [("x", Schema.prim (some "ZodString")),
        ("y", Schema.prim (some "ZodNumber"))].lookup p.1 = some w ∧
        equivSchema p.2 w = true :=
  (areTypesEquivalent_superset_rule.1 _ _).mp rfl

/-- C3 counterexample: two defined primitive-like descriptors neither of
which exposes a readable kind tag. The claim requires the checker to
return `false` here (no readable tag means incompatible), but the exported
`areTypesEquivalent` compares `b._def?.typeName == a._def?.typeName`, and
`undefined == undefined` is `true`. -/
theorem areTypesEquivalent_both_tagless_true :
    areTypesEquivalent (some (.prim none)) (some (.prim none)) = true := rfl

/-- C3 amended: on two defined descriptors neither of which exposes a
named-field shape, the checker returns `true` iff the two reported kind
tags are equal as optional values — two absent tags count as equal (the
loose-equality `undefined == undefined` case); in particular, when exactly
one of the two exposes no readable tag the result is `false`. -/
theorem areTypesEquivalent_primitive_tag_rule (a b : Schema)
    (ha : isObjectLike a = false) (hb : isObjectLike b = false) :
    (areTypesEquivalent (some a) (some b) = true ↔ kindTag a = kindTag b) := by
  cases a with
  | obj fa => cases ha
  | prim t =>
    cases b with
    | obj fb => cases hb
    | prim u =>
      show (kindTag (Schema.prim t) == kindTag (Schema.prim u)) = true ↔ _
      exact beq_iff_eq

/-- C3 amended witness: two string-tagged primitives compare equal. -/
theorem areTypesEquivalent_primitive_tag_rule_witness :
    areTypesEquivalent (some (.prim (some "ZodString")))
      (some (.prim (some "ZodString"))) = true :=
  (areTypesEquivalent_primitive_tag_rule (.prim (some "ZodString"))
    (.prim (some "ZodString")) rfl rfl).mpr rfl

/-- C10: a defined object-like descriptor against a defined primitive-like
descriptor falls through to the kind-tag comparison, which returns `false`
whenever the primitive's tag differs from the object tag `"ZodObject"` —
and no Zod primitive schema reports the object tag. -/
theorem areTypesEquivalent_mixed_shape_false
    (fields : List (String × Schema)) (t : Option String)
    (h : t ≠ some "ZodObject") :
    areTypesEquivalent (some (.obj fields)) (some (.prim t)) = false ∧
    areTypesEquivalent (some (.prim t)) (some (.obj fields)) = false := by
  constructor
  · show (kindTag (Schema.obj fields) == kindTag (Schema.prim t)) = false
    exact beq_eq_false_iff_ne.mpr fun hc => h hc.symm
  · show (kindTag (Schema.prim t) == kindTag (Schema.obj fields)) = false
    exact beq_eq_false_iff_ne.mpr h

/-- C4: `validateStack` scans adjacent pairs in ascending index order; the
input-contract check runs exactly when `self.NextMiddlewareArg` is present,
the output-contract check runs unconditionally, and within a pair the
input-mismatch diagnostic precedes the output-mismatch diagnostic; a
two-element stack with both contract pairs mismatching yields exactly two
diagnostics, input-mismatch first. -/
theorem validateStack_pair_scan :
    (∀ (checker : Option Schema → Option Schema → Bool) (x y : Mw)
        (rest : List Mw),
      validateStack (x :: y :: rest) checker =
        pairMsgs checker x y ++ validateStack (y :: rest) checker) ∧
    (∀ (checker : Option Schema → Option Schema → Bool) (m1 m2 : Mw),
      m1.NextMiddlewareArg = none →
      validateStack [m1, m2] checker =
        if checker m1.NextMiddlewareReturnType m2.MyReturnType then []
        else [outputMismatchMsg m1 m2]) ∧
    (∀ (checker : Option Schema → Option Schema → Bool) (m1 m2 : Mw),
      (m1.NextMiddlewareArg).isSome = true →
      validateStack [m1, m2] checker =
        (if checker m2.MyArgType m1.NextMiddlewareArg then []
         else [inputMismatchMsg m1 m2]) ++
        (if checker m1.NextMiddlewareReturnType m2.MyReturnType then []
         else [outputMismatchMsg m1 m2])) ∧
    (∀ (checker : Option Schema → Option Schema → Bool) (m1 m2 : Mw),
      (m1.NextMiddlewareArg).isSome = true →
      checker m2.MyArgType m1.NextMiddlewareArg = false →
      checker m1.NextMiddlewareReturnType m2.MyReturnType = false →
      validateStack [m1, m2] checker =
        [inputMismatchMsg m1 m2, outputMismatchMsg m1 m2]) := by
  have habsent : ∀ (checker : Option Schema → Option Schema → Bool)
      (m1 m2 : Mw), m1.NextMiddlewareArg = none →
      validateStack [m1, m2] checker =
        if checker m1.NextMiddlewareReturnType m2.MyReturnType then []
        else [outputMismatchMsg m1 m2] := by
    intro checker m1 m2 hnone
    rw [validateStack_two]
    unfold pairMsgs isNever
    rw [hnone]
    cases hout : checker m1.NextMiddlewareReturnType m2.MyReturnType <;> simp
  have hpresent : ∀ (checker : Option Schema → Option Schema → Bool)
      (m1 m2 : Mw), (m1.NextMiddlewareArg).isSome = true →
      validateStack [m1, m2] checker =
        (if checker m2.MyArgType m1.NextMiddlewareArg then []
         else [inputMismatchMsg m1 m2]) ++
        (if checker m1.NextMiddlewareReturnType m2.MyReturnType then []
         else [outputMismatchMsg m1 m2]) := by
    intro checker m1 m2 hsome
    obtain ⟨v, hv⟩ := Option.isSome_iff_exists.mp hsome
    rw [validateStack_two]
    unfold pairMsgs isNever
    rw [hv]
    cases hin : checker m2.MyArgType (some v) <;>
      cases hout : checker m1.NextMiddlewareReturnType m2.MyReturnType <;>
        simp [hin, hout]
  refine ⟨validateStack_cons, habsent, hpresent, ?_⟩
  intro checker m1 m2 hsome hin hout
  rw [hpresent checker m1 m2 hsome, hin, hout]
  simp

/-- C4 witness: the P2 instance — a concrete two-element stack both of
whose contract pairs mismatch under the default checker yields exactly the
input-mismatch then the output-mismatch diagnostic. -/
theorem validateStack_pair_scan_witness :
    validateStack [mwSelfFix, mwNextFix] areTypesEquivalent =
      [inputMismatchMsg mwSelfFix mwNextFix,
        outputMismatchMsg mwSelfFix mwNextFix] :=
  validateStack_pair_scan.2.2.2 areTypesEquivalent mwSelfFix mwNextFix
    rfl rfl rfl

/-- C9: with any checker that does not throw — in particular for every
ordinary mismatch-reporting checker — `validateStack` returns `Except.ok`
of a (possibly empty) diagnostic list rather than an exception, and the
state-threaded view of its loop returns the stack unchanged alongside the
same diagnostics. -/
theorem validateStack_total_and_readonly :
    ∀ (stack : List Mw) (f : Option Schema → Option Schema → Bool),
      validateStackE stack (fun a b => Except.ok (f a b)) =
        Except.ok (validateStack stack f) ∧
      validateStackSt stack f = (validateStack stack f, stack) := by
  intro stack f
  constructor
  · unfold validateStackE validateStack
    rw [foldlM_stepE_ok stack f (List.range (stack.length - 1)) []]
    simp
  · unfold validateStackSt validateStack
    rw [foldl_stepSt f stack (List.range (stack.length - 1)) []]
    simp

/-- C10 witness: an empty object shape against a `ZodString` primitive is
incompatible in both directions. -/
theorem areTypesEquivalent_mixed_shape_false_witness :
    areTypesEquivalent (some (.obj [])) (some (.prim (some "ZodString"))) = false ∧
    areTypesEquivalent (some (.prim (some "ZodString"))) (some (.obj [])) = false :=
  areTypesEquivalent_mixed_shape_false [] (some "ZodString") (by decide)

/-- C8: `composeStack` nests calls in stack order — the head middleware
receives the initial input together with the continuation composing the
rest of the stack; the P5 three-step logging stack produces the strictly
nested log `[1-start, 2-start, 3-start-and-terminal, 2-end, 1-end]`; and
the `[Double, Triple]` scenario on an input whose value field is 5 returns
an object whose result field is 10, with an empty log, so `Triple` was
never invoked. -/
theorem composeStack_nesting :
    (∀ (m : MwF) (rest : List MwF) (req : V),
      composeStack (m :: rest) req = m req (composeStack rest)) ∧
    composeStack [logAroundMw "1", logAroundMw "2", termLogMw]
      (V.vobj [("value", V.vnum 5)]) [] =
      (V.vobj [("value", V.vnum 5)],
        ["1-start", "2-start", "3-start-and-terminal", "2-end", "1-end"]) ∧
    composeStack [doubleMw, tripleProbeMw]
      (V.vobj [("value", V.vnum 5)]) [] =
      (V.vobj [("result", V.vnum 10)], []) := by
  refine ⟨fun m rest req => rfl, ?_, ?_⟩ <;> rfl

/-- C2 counterexample: a one-element stack whose only (hence last) element
calls `next(input, onNextResolved)` with a logging callback; running the
composed stack leaves the log empty, so the terminal stub never invoked
the `onNextResolved` callback — the claim requires it to be invoked with
an empty placeholder, which would have logged an event. -/
theorem composeGenStack_terminal_never_resolves :
    composeGenStack [genLogProbe] (V.vobj []) noopCb [] = ((), []) := rfl

/-- C2 amended: the terminal stub of the callback-style composer declares
only the request parameter, so the `onNextResolved` callback supplied by
the last stack element's `next` call is dropped and never invoked: for
every input, every callback and every prior log, the run leaves the log
unchanged (the stub's own empty-object return value is discarded by the
void-typed call site). -/
theorem composeGenStack_terminal_ignores_callback :
    ∀ (input : V) (onNextResolved resolve : GenCb) (log : List String),
      composeGenStack [genCallProbe onNextResolved] input resolve log =
        ((), log) :=
  fun _input _onNextResolved _resolve _log => rfl

/-- C1 (code bug): resolving a present name hands back the stored provider
function itself — `Promise.all` resolves non-thenable values, such as the
zero-argument provider functions, to themselves without invoking them — so
the resolved stack holds the uninvoked provider rather than the middleware
it would yield, for both registry flavours. -/
theorem getFromRegistry_returns_uninvoked_provider :
    getFromRegistry ["mw"] [("mw", RegItem.provider (RegItem.mwItem 7))] =
      Except.ok [RegItem.provider (RegItem.mwItem 7)] ∧
    getGenFromRegistry ["mw"] [("mw", RegItem.provider (RegItem.mwItem 7))] =
      Except.ok [RegItem.provider (RegItem.mwItem 7)] ∧
    RegItem.provider (RegItem.mwItem 7) ≠ RegItem.mwItem 7 :=
  ⟨rfl, rfl, by decide⟩

/-- C7: requesting at least one name missing from the registry fails with
the single error message listing precisely the missing names, comma+space
separated, in request order; and the failure is independent of the stored
provider values (only the key set is consulted), so no provider is
resolved. -/
theorem getFromRegistry_missing_atomic :
    ∀ (stack : List String) (registry : List (String × RegItem)),
      (∃ el, el ∈ stack ∧ (registry.map Prod.fst).contains el = false) →
      getFromRegistry stack registry =
        Except.error ("Missing middlewares in registry: " ++
          String.intercalate ", "
            (stack.filter fun el => !((registry.map Prod.fst).contains el))) ∧
      (∀ g : RegItem → RegItem,
        getFromRegistry stack (registry.map fun p => (p.1, g p.2)) =
          getFromRegistry stack registry) := by
  intro stack registry hmiss
  have hne : (stack.filter
      fun el => !((registry.map Prod.fst).contains el)).length > 0 := by
    obtain ⟨el, hel, hc⟩ := hmiss
    have hmem : el ∈ stack.filter
        fun el => !((registry.map Prod.fst).contains el) :=
      List.mem_filter.mpr ⟨hel, by rw [hc]; rfl⟩
    exact List.length_pos.mpr (List.ne_nil_of_mem hmem)
  have hkeys : ∀ g : RegItem → RegItem,
      (registry.map fun p => (p.1, g p.2)).map Prod.fst =
        registry.map Prod.fst := by
    intro g
    rw [List.map_map]
    rfl
  constructor
  · simp only [getFromRegistry]
    rw [if_pos hne]
  · intro g
    simp only [getFromRegistry, hkeys g]
    rw [if_pos hne, if_pos hne]

/-- C7 witness: the P6 instance — requesting `[present, missing1,
missing2]` from a registry holding only `present` fails with the exact
message naming the two missing names in request order. -/
theorem getFromRegistry_missing_atomic_witness :
    getFromRegistry ["present", "missing1", "missing2"]
      [("present", RegItem.mwItem 1)] =
      Except.error "Missing middlewares in registry: missing1, missing2" := by
  have h := (getFromRegistry_missing_atomic
    ["present", "missing1", "missing2"] [("present", RegItem.mwItem 1)]
    ⟨"missing1", by decide, by decide⟩).1
  exact h.trans (congrArg Except.error (by decide))

end Middlewares
